import Mathlib

/-!
Verification development for the bio-scripts repository, centred on the
accession-range resolution and sequence-grouping pipeline of
src/ICTV/organise_taxa_fasta.py.

The Python functions are shallowly embedded as executable Lean functions:

* regular-expression behaviour is modelled directly for the three concrete
  patterns the script uses, over ASCII character classes (all inputs of
  interest are ASCII);
* Python exceptions (AttributeError from calling group on a failed
  re.search, ValueError from tuple unpacking and from the Biopython
  to_dict duplicate check) are modelled with an Except monad;
* Python dicts are modelled as insertion-ordered association lists with
  overwrite-in-place semantics, matching dict assignment.
-/

deriving instance DecidableEq for Except

namespace BioScripts

/-- Model of the Python regex class backslash-w restricted to ASCII:
letters, digits and the underscore. -/
def isWordChar (c : Char) : Bool :=
  c.isAlpha || c.isDigit || c == '_'

/-- Model of the Python regex class backslash-s restricted to ASCII:
space, tab, newline, carriage return, vertical tab and form feed. -/
def isSpaceChar (c : Char) : Bool :=
  c == ' ' || c == '\t' || c == '\n' || c == '\r' || c == '\x0b' || c == '\x0c'

/-- Characters allowed inside an accession token by the group pattern of
parse_accession_ids: word characters and the hyphen. -/
def isTokenChar (c : Char) : Bool :=
  isWordChar c || c == '-'

/-- The three segment marker letters accepted by the pattern. -/
def isLSM (c : Char) : Bool :=
  c == 'L' || c == 'S' || c == 'M'

/-- Python exceptions that can escape the embedded functions. -/
inductive PyErr where
  | attributeError : PyErr
  | valueError : String → PyErr
deriving DecidableEq, Repr

/-- Model of str.split with a one-character separator: split on every
occurrence, keeping empty pieces, as Python does. -/
def splitOnChar (sep : Char) (l : List Char) : List (List Char) :=
  l.foldr
    (fun c acc =>
      match acc with
      | cur :: rest => if c == sep then [] :: cur :: rest else (c :: cur) :: rest
      | [] => [[c]])
    [[]]

/-- Maximal trailing digit run of a string, as matched by the pattern
digits-then-end used in parse_accession_ids; none when the string does not
end in a digit, mirroring re.search returning None. -/
def searchTrailingDigits (l : List Char) : Option (List Char) :=
  let d := (l.reverse.takeWhile Char.isDigit).reverse
  if d.isEmpty then none else some d

/-- Characters of a string with its maximal trailing digit run removed;
models the slice start up to minus the length of the digit run. -/
def dropTrailingDigits (l : List Char) : List Char :=
  (l.reverse.dropWhile Char.isDigit).reverse

/-- Decimal digits to a natural number, the int conversion applied to the
digit runs (always non-negative digit strings in this script). -/
def decToNat (l : List Char) : Nat :=
  l.foldl (fun a c => a * 10 + (c.toNat - 48)) 0

/-- Word-boundary test before a word character: the previous character is
absent or not a word character. -/
def boundaryBefore (prev : Option Char) : Bool :=
  match prev with
  | none => true
  | some p => !(isWordChar p)

/-- Greedy continuation of the token-group pattern: consume repetitions of
a comma followed by a non-empty run of token characters. Returns the
consumed characters and the remainder. Fuel bounds recursion; callers pass
at least the length of the input, which always suffices because each step
consumes at least two characters. -/
def groupMore (fuel : Nat) (l : List Char) : List Char × List Char :=
  match fuel with
  | 0 => ([], l)
  | fuel + 1 =>
    match l with
    | ',' :: r2 =>
      let run2 := r2.takeWhile isTokenChar
      if run2.isEmpty then ([], ',' :: r2)
      else
        let pr := groupMore fuel (r2.dropWhile isTokenChar)
        (',' :: (run2 ++ pr.1), pr.2)
    | _ => ([], l)

/-- Model of re.findall for the marker pattern of parse_accession_ids:
scan left to right; at each position require a word boundary, a letter in
L, S, M, a colon, optional whitespace and then a greedy comma-separated
token group; on success emit the captured pair and resume after the match,
on failure advance one character. Fuel bounds recursion; the top-level
wrapper passes the input length plus one, which suffices because every
step consumes at least one character. -/
def findPairs (fuel : Nat) (prev : Option Char) (l : List Char) :
    List (String × List Char) :=
  match fuel with
  | 0 => []
  | fuel + 1 =>
    match l with
    | [] => []
    | c :: rest =>
      if boundaryBefore prev && isLSM c then
        match rest with
        | ':' :: r1 =>
          let r2 := r1.dropWhile isSpaceChar
          let run1 := r2.takeWhile isTokenChar
          if run1.isEmpty then findPairs fuel (some c) rest
          else
            let pr := groupMore (r2.length + 1) (r2.dropWhile isTokenChar)
            let grp := run1 ++ pr.1
            findPairs fuel (some (grp.getLastD '-')) pr.2 |>.cons
              (String.mk [c], grp)
        | _ => findPairs fuel (some c) rest
      else findPairs fuel (some c) rest

/-- Expansion of one comma-separated token, mirroring the body of the
inner loop of parse_accession_ids. A token containing a hyphen is split on
every hyphen and unpacked into start and end (ValueError when more than
one hyphen); the maximal trailing digit runs are extracted (AttributeError
when absent, exactly where the Python calls group on a failed search); the
identifiers are the start prefix concatenated with each plain decimal
integer from start to end inclusive. A token without a hyphen is kept
verbatim. -/
def expandToken (part : List Char) : Except PyErr (List String) :=
  if part.any (fun c => c == '-') then
    match splitOnChar '-' part with
    | [s1, s2] =>
      match searchTrailingDigits s1 with
      | none => .error .attributeError
      | some sd =>
        match searchTrailingDigits s2 with
        | none => .error .attributeError
        | some ed =>
          let pre := dropTrailingDigits s1
          let a := decToNat sd
          let b := decToNat ed
          .ok ((List.range' a (b + 1 - a)).map
            (fun n => String.mk pre ++ toString n))
    | _ => .error (.valueError "too many values to unpack")
  else .ok [String.mk part]

/-- Sequential expansion of all tokens of one group, concatenated in
order; the first exception aborts the whole call, as an uncaught Python
exception does. -/
def expandGroup : List (List Char) → Except PyErr (List String)
  | [] => .ok []
  | p :: rest => do
    let ids ← expandToken p
    let more ← expandGroup rest
    .ok (ids ++ more)

/-- Python dict assignment on an insertion-ordered association list: an
existing key keeps its position and gets the new value, a new key is
appended. -/
def pyDictSet {β : Type} (d : List (String × β)) (k : String) (v : β) :
    List (String × β) :=
  if d.any (fun kv => kv.1 == k) then
    d.map (fun kv => if kv.1 == k then (k, v) else kv)
  else d ++ [(k, v)]

/-- The per-pair loop of parse_accession_ids: skip pairs whose key does
not match a non-all segment filter, expand the kept groups and assign them
into the dict. -/
def parseLoop (segment : String) :
    List (String × List Char) → List (String × List String) →
    Except PyErr (List (String × List String))
  | [], acc => .ok acc
  | (key, grp) :: rest, acc =>
    if segment != "all" && key != segment then parseLoop segment rest acc
    else do
      let ids ← expandGroup (splitOnChar ',' grp)
      parseLoop segment rest (pyDictSet acc key ids)

/-- Embedding of parse_accession_ids from src/ICTV/organise_taxa_fasta.py:
find all marker pairs with the findall model, then run the per-pair loop.
The result is the insertion-ordered dict from segment code to identifier
list, or the first uncaught exception. -/
def parse_accession_ids (accession_str : String) (segment : String) :
    Except PyErr (List (String × List String)) :=
  parseLoop segment
    (findPairs (accession_str.data.length + 1) none accession_str.data) []

/-- Characters kept by the first substitution of sanitize_filename: the
complement of the deleted class, namely word characters, whitespace and
the hyphen. -/
def keepChar (c : Char) : Bool :=
  isWordChar c || isSpaceChar c || c == '-'

/-- Model of substituting every maximal whitespace run by one underscore:
the flag records whether the previous character was part of a run already
replaced. -/
def collapseWs : Bool → List Char → List Char
  | _, [] => []
  | inRun, c :: rest =>
    if isSpaceChar c then
      if inRun then collapseWs true rest
      else '_' :: collapseWs true rest
    else c :: collapseWs false rest

/-- Embedding of sanitize_filename from src/ICTV/organise_taxa_fasta.py:
delete every character that is not a word character, whitespace or a
hyphen, then replace each maximal whitespace run by one underscore. -/
def sanitize_filename (filename : String) : String :=
  String.mk (collapseWs false (filename.data.filter keepChar))

/-- Characters that may appear in the output of sanitize_filename: word
characters and the hyphen. -/
def outChar (c : Char) : Bool :=
  isWordChar c || c == '-'

/-- One sequence record of the archive, as produced by the FASTA reader:
the record id (possibly carrying a version suffix) and its sequence
payload. -/
structure FastaRecord where
  id : String
  seq : String
deriving DecidableEq, Repr

/-- The key function passed to the Biopython to_dict call: the text of the
record id before the first dot, so any trailing version suffix is
stripped. -/
def stripVersion (s : String) : String :=
  String.mk (s.data.takeWhile (fun c => c != '.'))

/-- Lookup in an insertion-ordered association list, the dict get of the
embedded dicts. -/
def alistGet {β : Type} (d : List (String × β)) (k : String) : Option β :=
  match d.find? (fun kv => kv.1 == k) with
  | some kv => some kv.2
  | none => none

/-- Loop of the Biopython SeqIO.to_dict call made by read_fasta_sequences:
insert each record under its stripped id, raising ValueError as soon as a
key repeats (Biopython documents that to_dict raises ValueError on
duplicate keys rather than keeping either record). -/
def to_dict_aux (acc : List (String × FastaRecord)) :
    List FastaRecord → Except PyErr (List (String × FastaRecord))
  | [] => .ok acc
  | r :: rest =>
    let k := stripVersion r.id
    if acc.any (fun kv => kv.1 == k) then .error (.valueError k)
    else to_dict_aux (acc ++ [(k, r)]) rest

/-- Model of Bio.SeqIO.to_dict applied to the parsed archive with the
version-stripping key function. -/
def to_dict (records : List FastaRecord) :
    Except PyErr (List (String × FastaRecord)) :=
  to_dict_aux [] records

/-- Boolean success test on an Except value. -/
def exOk {ε α : Type} : Except ε α → Bool
  | .ok _ => true
  | .error _ => false

/-- Embedding of read_fasta_sequences from src/ICTV/organise_taxa_fasta.py:
build the stripped-id dict with to_dict, then keep, per requested
accession present in the dict, the entry mapping that accession to its
record, in accession order, as the dict comprehension does. Any exception
of to_dict propagates. -/
def read_fasta_sequences (records : List FastaRecord)
    (accessions : List String) :
    Except PyErr (List (String × FastaRecord)) := do
  let d ← to_dict records
  .ok (accessions.foldl
    (fun m a =>
      match alistGet d a with
      | some r => pyDictSet m a r
      | none => m)
    [])

/-- Embedding of the per-row emission loop of write_fasta_files: iterate
the parsed dict in insertion order, and for each identifier of each
segment group append the record found in the sequences dict, skipping
identifiers whose lookup yields nothing (the falsy None of dict get). -/
def write_group (acc_dict : List (String × List String))
    (sequences : List (String × FastaRecord)) : List FastaRecord :=
  acc_dict.foldl
    (fun out kv =>
      kv.2.foldl
        (fun out2 acc =>
          match alistGet sequences acc with
          | some r => out2 ++ [r]
          | none => out2)
        out)
    []

/-- Modelled from the spec wording of the TaxonGroupWriter contract: the
concatenation, in segment-then-token order, of every identifier resolved
payload, identifiers absent from the index being skipped. Stated as a
second definition to be compared with the loop-shaped write_group. -/
def resolvedPayloads (acc_dict : List (String × List String))
    (sequences : List (String × FastaRecord)) : List FastaRecord :=
  (acc_dict.flatMap (fun kv => kv.2)).filterMap (fun a => alistGet sequences a)

/-! Helper lemmas shared by the claim theorems below. -/

/-- The inner emission loop over one identifier list appends exactly the
successfully resolved payloads, in order. -/
theorem foldl_lookup_eq_filterMap (s : List (String × FastaRecord))
    (ids : List String) (out : List FastaRecord) :
    ids.foldl
      (fun out2 acc =>
        match alistGet s acc with
        | some r => out2 ++ [r]
        | none => out2)
      out
    = out ++ ids.filterMap (fun a => alistGet s a) := by
  induction ids generalizing out with
  | nil => simp
  | cons a ids ih =>
    simp only [List.foldl_cons, List.filterMap_cons]
    cases h : alistGet s a <;> simp [h, ih, List.append_assoc]

/-- The outer emission loop, started from any accumulator, appends the
resolved payloads of the whole dict. -/
theorem foldl_write_eq_res (s : List (String × FastaRecord))
    (d : List (String × List String)) (out : List FastaRecord) :
    d.foldl
      (fun out1 kv =>
        kv.2.foldl
          (fun out2 acc =>
            match alistGet s acc with
            | some r => out2 ++ [r]
            | none => out2)
          out1)
      out
    = out ++ resolvedPayloads d s := by
  induction d generalizing out with
  | nil => simp [resolvedPayloads]
  | cons kv d ih =>
    simp only [List.foldl_cons]
    rw [foldl_lookup_eq_filterMap, ih]
    simp [resolvedPayloads, List.filterMap_append, List.append_assoc]

/-- Every character emitted by the whitespace-collapsing pass on a list of
kept characters is a word character or a hyphen. -/
theorem collapseWs_all_out (l : List Char) (b : Bool)
    (h : l.all keepChar = true) : (collapseWs b l).all outChar = true := by
  induction l generalizing b with
  | nil => rfl
  | cons c rest ih =>
    simp only [List.all_cons, Bool.and_eq_true] at h
    by_cases hs : isSpaceChar c = true
    · cases b with
      | true => simpa [collapseWs, hs] using ih true h.2
      | false =>
        have h_ : outChar '_' = true := by decide
        simpa [collapseWs, hs, h_] using ih true h.2
    · have hs' : isSpaceChar c = false := by
        cases hval : isSpaceChar c
        · rfl
        · exact absurd hval hs
      have hc : outChar c = true := by
        have hk := h.1
        simp only [keepChar, hs', Bool.or_false, Bool.false_or] at hk
        rcases Bool.or_eq_true_iff.mp hk with h1 | h1
        · simp [outChar, h1]
        · simp [outChar, h1]
      simpa [collapseWs, hs', hc] using ih false h.2

/-- Filtering by the kept-character class yields a list on which the
class holds everywhere. -/
theorem filter_keepChar_all (l : List Char) :
    (l.filter keepChar).all keepChar = true := by
  simp [List.all_eq_true, List.mem_filter]

/-- If insertion of a list of records with pairwise distinct seen keys
meets a duplicate stripped id, the to_dict loop raises. -/
theorem to_dict_aux_dup (records : List FastaRecord) :
    ∀ acc : List (String × FastaRecord),
      (acc.map Prod.fst).Nodup →
      ¬ (acc.map Prod.fst ++
          records.map (fun r => stripVersion r.id)).Nodup →
      exOk (to_dict_aux acc records) = false := by
  induction records with
  | nil =>
    intro acc h1 h2
    simp only [List.map_nil, List.append_nil] at h2
    exact absurd h1 h2
  | cons r rest ih =>
    intro acc h1 h2
    simp only [to_dict_aux]
    by_cases hk : acc.any (fun kv => kv.1 == stripVersion r.id) = true
    · simp [hk, exOk]
    · have hk' : acc.any (fun kv => kv.1 == stripVersion r.id) = false := by
        cases hval : acc.any (fun kv => kv.1 == stripVersion r.id)
        · rfl
        · exact absurd hval hk
      rw [if_neg (by simp [hk'])]
      apply ih
      · have hnot : stripVersion r.id ∉ acc.map Prod.fst := by
          simp only [List.any_eq_true, beq_iff_eq] at hk
          simp only [List.mem_map]
          rintro ⟨kv, hmem, hfst⟩
          exact hk ⟨kv, hmem, hfst⟩
        simp [List.nodup_append, h1, List.disjoint_singleton, hnot]
      · simp only [List.map_append, List.map_cons]
        intro hcontra
        apply h2
        simpa [List.append_assoc] using hcontra

/-! Claim theorems. -/

/-- Claim C1, counterexample: parsing the range token PREFIX007-PREFIX010
under an L marker does not return the zero-padded identifiers PREFIX007,
PREFIX008, PREFIX009, PREFIX010 that the claim demands. -/
theorem range_padding_claim_false :
    parse_accession_ids "L: PREFIX007-PREFIX010" "all"
      ≠ .ok [("L", ["PREFIX007", "PREFIX008", "PREFIX009", "PREFIX010"])] := by
  decide

/-- Claim C1, amended: leading-zero padding of the start identifier is not
preserved; each integer of the range is formatted as a plain decimal, so
the range token PREFIX007-PREFIX010 expands to PREFIX7, PREFIX8, PREFIX9,
PREFIX10 in that order. -/
theorem range_padding_dropped :
    parse_accession_ids "L: PREFIX007-PREFIX010" "all"
      = .ok [("L", ["PREFIX7", "PREFIX8", "PREFIX9", "PREFIX10"])] := by
  decide

/-- Claim C2, counterexample: a range token whose END part has no trailing
digit run raises an uncaught AttributeError that aborts the whole parse,
so the later M group of the same row is never processed, contrary to the
claim that a malformed token is reported and skipped without aborting. -/
theorem malformed_range_aborts :
    parse_accession_ids "L: A1-B, M: C1" "all" = .error .attributeError := by
  decide

/-- Claim C2, amended: a range token whose end number is smaller than its
start silently expands to no identifiers and the remaining tokens and
groups of the row continue processing, but a range token whose END part
has no trailing digit run raises an uncaught AttributeError that aborts
the entire parse. -/
theorem malformed_range_behaviour :
    parse_accession_ids "L: B5-B3,B9, M: C1" "all"
        = .ok [("L", ["B9"]), ("M", ["C1"])]
      ∧ parse_accession_ids "L: A1-C" "all" = .error .attributeError := by
  constructor
  · decide
  · decide

/-- Claim C3, counterexample: an archive with two records whose ids are
equal after stripping the version suffix makes index construction fail
with a duplicate-key ValueError instead of succeeding with the first-seen
record. -/
theorem duplicate_ids_fatal :
    read_fasta_sequences [⟨"X.1", "AAA"⟩, ⟨"X.2", "CCC"⟩] ["X"]
      = .error (.valueError "X") := by
  decide

/-- Claim C3, amended: whenever the stripped ids of the archive records
are not pairwise distinct, building the index fails with an exception;
duplicates are fatal, and no first-seen record is kept. -/
theorem duplicate_ids_error (records : List FastaRecord)
    (h : ¬ (records.map (fun r => stripVersion r.id)).Nodup) :
    exOk (to_dict records) = false :=
  to_dict_aux_dup records [] (by simp) (by simpa using h)

/-- Witness for the amended C3 theorem at a concrete duplicated archive. -/
theorem duplicate_ids_error_witness :
    (¬ (([⟨"X.1", "AAA"⟩, ⟨"X.2", "CCC"⟩] : List FastaRecord).map
        (fun r => stripVersion r.id)).Nodup)
    ∧ exOk (to_dict [⟨"X.1", "AAA"⟩, ⟨"X.2", "CCC"⟩]) = false :=
  ⟨by decide, duplicate_ids_error [⟨"X.1", "AAA"⟩, ⟨"X.2", "CCC"⟩] (by decide)⟩

/-- Claim C4, counterexample: a range token whose start and end carry
different alphanumeric parts before their trailing digit runs does not
fail; the parse succeeds and produces identifiers built from the start
characters, exactly what the claim says must not happen. -/
theorem mismatch_range_not_failed :
    parse_accession_ids "L: AA1-BB3" "all"
      = .ok [("L", ["AA1", "AA2", "AA3"])] := by
  decide

/-- Claim C4, amended: on a range token whose start and end have differing
leading parts, the parser silently reuses the start characters before the
trailing digits for every generated identifier, spanning the numeric range
of the two suffixes, and reports no failure. -/
theorem mismatch_range_uses_start :
    parse_accession_ids "L: QQ7-RR9" "all"
      = .ok [("L", ["QQ7", "QQ8", "QQ9"])] := by
  decide

/-- Claim C5, counterexample: when the same segment code introduces two
groups, the identifiers of the earlier group are lost; the dict assignment
overwrites the entry, so the result holds only the later group. -/
theorem repeated_marker_overwrites :
    parse_accession_ids "L: A1, L: B1" "all" = .ok [("L", ["B1"])]
      ∧ parse_accession_ids "L: A1, L: B1" "all"
        ≠ .ok [("L", ["A1", "B1"])] := by
  constructor
  · decide
  · decide

/-- Claim C5, amended: when a segment code introduces several groups, only
the last group of that code survives, stored at the position where the
code first appeared; earlier groups of the same code are discarded. -/
theorem repeated_marker_last_wins :
    parse_accession_ids "L: A1, M: C1, L: B1" "all"
      = .ok [("L", ["B1"]), ("M", ["C1"])] := by
  decide

/-- Claim C6, counterexample: the underscore is neither alphanumeric nor
whitespace nor a hyphen, yet sanitization keeps it, because the deleted
class is the complement of word characters, whitespace and hyphen and the
underscore is a word character. -/
theorem sanitize_keeps_underscore :
    sanitize_filename "a_b" = "a_b" ∧ sanitize_filename "a_b" ≠ "ab" := by
  constructor
  · decide
  · decide

/-- Claim C6, amended: sanitization is a total function that strips every
character that is not a word character (alphanumeric or underscore),
whitespace, or a hyphen, then collapses each whitespace run to a single
underscore; every output character is a word character or a hyphen, and
the two quoted examples hold. -/
theorem sanitize_filename_spec :
    (∀ s : String, ((sanitize_filename s).data).all outChar = true)
    ∧ sanitize_filename "Rift Valley fever virus" = "Rift_Valley_fever_virus"
    ∧ sanitize_filename "Sp. (strain A)" = "Sp_strain_A" := by
  refine ⟨fun s => ?_, by decide, by decide⟩
  exact collapseWs_all_out (s.data.filter keepChar) false
    (filter_keepChar_all s.data)

/-- Claim C7: with segment filter L, the string with an L group X1-X2 and
an M group Y1-Y2 parses to a mapping holding only the key L with X1 and
X2; the key M is absent and nothing from the M group leaks in. -/
theorem segment_isolation :
    parse_accession_ids "L: X1-X2, M: Y1-Y2" "L"
      = .ok [("L", ["X1", "X2"])] := by
  decide

/-- Claim C8: a range crossing a decimal width boundary without leading
zeros grows naturally, as in plain integer formatting: AB99-AB101 expands
to AB99, AB100, AB101 in that order. -/
theorem range_width_growth :
    parse_accession_ids "L: AB99-AB101" "all"
      = .ok [("L", ["AB99", "AB100", "AB101"])] := by
  decide

/-- Claim C9: the per-row emission loop produces exactly the resolved
payloads of the identifiers present in the index, in segment-then-token
order; an identifier absent from the index is skipped, never a failure, as
the concrete instance with MN003 missing also shows. -/
theorem write_group_resolves_present :
    (∀ (d : List (String × List String))
        (s : List (String × FastaRecord)),
        write_group d s = resolvedPayloads d s)
    ∧ write_group [("L", ["MN001", "MN003"])]
        [("MN001", ⟨"MN001.1", "ACGT"⟩)] = [⟨"MN001.1", "ACGT"⟩] := by
  refine ⟨fun d s => ?_, by decide⟩
  simpa using foldl_write_eq_res s d []

/-- Claim C10: the group pattern admits no whitespace after a comma, so a
comma followed by a space ends the captured group: the tokens after it are
silently dropped, while a comma with no space keeps the whole list. -/
theorem comma_space_truncates_group :
    parse_accession_ids "L: A1, B2" "all" = .ok [("L", ["A1"])]
      ∧ parse_accession_ids "L: A1,B2" "all" = .ok [("L", ["A1", "B2"])] := by
  constructor
  · decide
  · decide

end BioScripts
